import Mathlib

/-!
Verification of `env_audit_report.py`: a tool that discovers Python virtual
environments under a root directory, inspects each environment's installed
packages via that environment's own interpreter, runs `pip check`, and writes
two CSV reports.

The embedding models:
* the filesystem as a tree of named files and directories (`FSNode`),
* `find_virtualenvs` (an `os.walk` with pruning via `dirnames.clear()`),
* JSON payloads (`JVal`) together with the Python dynamic semantics the
  aggregation loop relies on (`dict.get`, truthiness, iteration), with a
  raised exception modelled as `Except.error`,
* the two subprocess boundaries (`get_env_package_info`, `run_pip_check`)
  through oracles describing the observable outcome of each invocation,
* the introspection snippet executed inside each environment (`mkPayload`),
* the `main` aggregation loop and the pandas `DataFrame`/`to_csv` column
  derivation (`dfColumns`).
-/

/-- A JSON value, as produced by `json.loads` in the orchestrator.  Numbers
are modelled as rationals. -/
inductive JVal where
  | jnull : JVal
  | jbool (b : Bool) : JVal
  | jnum (q : ℚ) : JVal
  | jstr (s : String) : JVal
  | jarr (elems : List JVal) : JVal
  | jobj (fields : List (String × JVal)) : JVal

/-- Python truthiness (`if env_data:`): `None`, `False`, `0`, `""`, `[]` and
`{}` are falsy, everything else truthy. -/
def truthy : JVal → Bool
  | .jnull => false
  | .jbool b => b
  | .jnum q => !(decide (q = 0))
  | .jstr s => !s.isEmpty
  | .jarr elems => !elems.isEmpty
  | .jobj fields => !fields.isEmpty

/-- Key lookup in a JSON object.  `json.loads` builds a Python dict in which a
repeated key keeps its last value, so the last matching binding wins. -/
def olookup (fields : List (String × JVal)) (k : String) : Option JVal :=
  List.lookup k fields.reverse

/-- Python `v.get(k, dflt)`: defined on dicts, raises `AttributeError` on any
other value (the raise is modelled as `Except.error`). -/
def jget (v : JVal) (k : String) (dflt : JVal) : Except String JVal :=
  match v with
  | .jobj fields => .ok ((olookup fields k).getD dflt)
  | _ => .error "AttributeError"

/-- Python iteration (`for pkg in packages`): lists yield their elements,
strings their characters, dicts their keys; other values raise `TypeError`. -/
def pyIter : JVal → Except String (List JVal)
  | .jarr elems => .ok elems
  | .jstr s => .ok (s.toList.map (fun c => .jstr (String.singleton c)))
  | .jobj fields => .ok (fields.map (fun p => .jstr p.1))
  | _ => .error "TypeError"

/-- Effectful map over `Except`, mirroring a Python `for` loop that appends
one result per iteration and aborts on a raised exception. -/
def exMapM {α β : Type} (f : α → Except String β) : List α → Except String (List β)
  | [] => .ok []
  | x :: xs => do
    let y ← f x
    let ys ← exMapM f xs
    pure (y :: ys)

/-- Python `str.strip()`: drop leading and trailing whitespace.  Implemented
structurally over the character list so that it evaluates in the kernel. -/
def pyStrip (s : String) : String :=
  ⟨((s.data.dropWhile Char.isWhitespace).reverse.dropWhile Char.isWhitespace).reverse⟩

/-- The observable outcome of one `subprocess.run` invocation: either the
process completed with an exit code and captured streams, or it could not be
launched at all (`OSError` and friends). -/
inductive SubprocOutcome where
  | completed (exitCode : Nat) (stdout stderr : String) : SubprocOutcome
  | launchFailure (msg : String) : SubprocOutcome

/-- Model of `run_pip_check`: `pip check` with `check=True`.  A zero exit returns the
stripped stdout; a non-zero exit raises `CalledProcessError`, caught and
turned into stripped stdout and stderr joined by a newline; a launch failure
is caught and turned into descriptive text.  The function is total: no
exception escapes. -/
def run_pip_check : SubprocOutcome → String
  | .completed 0 out _ => pyStrip out
  | .completed (_ + 1) out err => pyStrip out ++ "\n" ++ pyStrip err
  | .launchFailure msg => "Error running pip check: " ++ msg

/-- The observable outcome of the introspection subprocess: a launch failure,
a non-zero exit (`check=True` raises `CalledProcessError`), a zero exit whose
stdout `json.loads` rejects, or a zero exit with a parsed JSON payload. -/
inductive InspectResult where
  | launchFailure : InspectResult
  | nonZeroExit : InspectResult
  | malformedPayload : InspectResult
  | payload (v : JVal) : InspectResult

/-- Model of `get_env_package_info`: every failure mode is caught by the bare
`except Exception` and collapsed to `None`; a parsed payload is returned. -/
def get_env_package_info : InspectResult → Option JVal
  | .payload v => some v
  | _ => none

/-- Whether the introspection subprocess failed (non-zero exit, malformed
payload, or interpreter not executable). -/
def inspectionFailed : InspectResult → Bool
  | .payload _ => false
  | _ => true

/-! ## Filesystem model and the environment locator -/

mutual
/-- A filesystem entry: a plain file or a directory with children.  Mutual
with `FSList` so that all traversals are plain structural recursions. -/
inductive FSNode where
  | file (name : String) : FSNode
  | dir (name : String) (children : FSList) : FSNode

/-- A list of sibling filesystem entries. -/
inductive FSList where
  | nil : FSList
  | cons (head : FSNode) (tail : FSList) : FSList
end

/-- The base name of an entry. -/
def FSNode.name : FSNode → String
  | .file n => n
  | .dir n _ => n

/-- View of an `FSList` as an ordinary list. -/
def FSList.toList : FSList → List FSNode
  | .nil => []
  | .cons h t => h :: t.toList

/-- The sibling names of an `FSList`. -/
def FSList.names : FSList → List String
  | .nil => []
  | .cons h t => h.name :: t.names

/-- Predicate `isFileNamed s e`: `e` is a plain file with name `s`. -/
def isFileNamed (s : String) : FSNode → Bool
  | .file n => n == s
  | .dir _ _ => false

/-- Does any entry of the list satisfy the predicate? -/
def FSList.anyB (p : FSNode → Bool) : FSList → Bool
  | .nil => false
  | .cons h t => p h || t.anyB p

/-- A platform marker: the relative path of the interpreter inside an
environment root, as a (subdirectory name, file name) pair. -/
abbrev Marker := String × String

/-- Unix-like marker `bin/python`. -/
def posixMarker : Marker := ("bin", "python")

/-- Windows marker `Scripts/python.exe`. -/
def windowsMarker : Marker := ("Scripts", "python.exe")

/-- Test `os.path.isfile(os.path.join(dirpath, mk.1, mk.2))`: among the children
there is a directory named `mk.1` containing a plain file named `mk.2`. -/
def hasMarkerB (mk : Marker) (children : FSList) : Bool :=
  children.anyB fun c =>
    match c with
    | .dir n gs => n == mk.1 && gs.anyB (isFileNamed mk.2)
    | .file _ => false

/-- One discovered environment: the tuple `(env_name, env_path, python_exe)`
appended by `find_virtualenvs`, with paths as component lists. -/
structure EnvRef where
  name : String
  path : List String
  pythonExe : List String
deriving DecidableEq

mutual
/-- Model of `find_virtualenvs`: the `os.walk(root_dir)` loop.  Each directory visited
is tested for the marker; on a hit the environment is emitted (named by the
directory's base name) and `dirnames.clear()` prevents any descent below it;
otherwise the walk descends into the subdirectories.  `p` is the path of the
parent of the node being visited. -/
def find_virtualenvs (mk : Marker) : FSNode → List String → List EnvRef
  | .file _, _ => []
  | .dir name children, p =>
    if hasMarkerB mk children then
      [⟨name, p ++ [name], p ++ [name] ++ [mk.1, mk.2]⟩]
    else
      findInList mk children (p ++ [name])

/-- Walk each subdirectory in sibling order. -/
def findInList (mk : Marker) : FSList → List String → List EnvRef
  | .nil, _ => []
  | .cons c rest, here => find_virtualenvs mk c here ++ findInList mk rest here
end

mutual
/-- No directory anywhere in the tree contains the interpreter marker. -/
def noMarkers (mk : Marker) : FSNode → Bool
  | .file _ => true
  | .dir _ children => !hasMarkerB mk children && noMarkersList mk children

/-- List version of `noMarkers`. -/
def noMarkersList (mk : Marker) : FSList → Bool
  | .nil => true
  | .cons c rest => noMarkers mk c && noMarkersList mk rest
end

/-- No string occurs twice in the list (Boolean form). -/
def nodupB : List String → Bool
  | [] => true
  | x :: xs => !xs.contains x && nodupB xs

mutual
/-- Well-formedness of a filesystem tree: in every directory the children
carry pairwise distinct names, as on a real filesystem. -/
def wfFS : FSNode → Bool
  | .file _ => true
  | .dir _ children => nodupB children.names && wfList children

/-- List version of `wfFS`. -/
def wfList : FSList → Bool
  | .nil => true
  | .cons c rest => wfFS c && wfList rest
end

/-- Path `a` is a strict ancestor directory of `b`. -/
def strictAncestor (a b : List String) : Prop := a ≠ b ∧ a <+: b

/-! ## The introspection snippet run inside each environment -/

/-- One entry of `pkg_resources.working_set`: the distribution's project name
and install location (a path, as components). -/
structure DistInfo where
  projectName : String
  location : List String
deriving DecidableEq

/-- Python `package_name.replace('-', '_')`: replace every hyphen by an
underscore (single-character pattern, so a per-character map). -/
def dashToUnderscore (s : String) : String :=
  ⟨s.data.map (fun c => if c = '-' then '_' else c)⟩

/-- The probable on-disk folder of a distribution: its location joined with
the project name with hyphens replaced by underscores. -/
def pkgFolder (d : DistInfo) : List String :=
  d.location ++ [dashToUnderscore d.projectName]

/-- The sentinel recorded when the derived package folder does not exist. -/
def notFoundSentinel : String := "Package folder not found."

/-- Python `round` to an integer: round half to even. -/
def roundHalfEven (q : ℚ) : ℤ :=
  let f := ⌊q⌋
  if q - f < 1 / 2 then f
  else if 1 / 2 < q - f then f + 1
  else if f % 2 = 0 then f else f + 1

/-- Python `round(x, 2)`. -/
def round2 (q : ℚ) : ℚ := (roundHalfEven (q * 100) : ℚ) / 100

/-- One element of the snippet's `packages` list.  `stat` is the filesystem as
seen from inside the environment: `some atime` when the path exists (with its
last-access timestamp), `none` when it does not.  `ctime` is `time.ctime`. -/
def mkPkgEntry (ctime : ℚ → String) (now : ℚ) (stat : List String → Option ℚ)
    (d : DistInfo) : JVal :=
  match stat (pkgFolder d) with
  | some atime =>
    .jobj [("Package", .jstr d.projectName),
           ("Last_Access_Time", .jstr (ctime atime)),
           ("Days_Since_Last_Access", .jnum (round2 ((now - atime) / (24 * 3600))))]
  | none =>
    .jobj [("Package", .jstr d.projectName),
           ("Last_Access_Time", .jstr notFoundSentinel),
           ("Days_Since_Last_Access", .jnull)]

/-- The full payload printed by the introspection snippet: the `env_info`
object (version, executable, prefix) and one `packages` entry per
distribution of the working set. -/
def mkPayload (ctime : ℚ → String) (now : ℚ) (stat : List String → Option ℚ)
    (ver exe pre : String) (dists : List DistInfo) : JVal :=
  .jobj [("env_info", .jobj [("Python_Version", .jstr ver),
                             ("Python_Installation_Location", .jstr exe),
                             ("Environment_Location", .jstr pre)]),
         ("packages", .jarr (dists.map (mkPkgEntry ctime now stat)))]

/-- The `packages` list of a payload, for stating properties. -/
def payloadPackages (v : JVal) : List JVal :=
  match v with
  | .jobj fields =>
    match olookup fields "packages" with
    | some (.jarr elems) => elems
    | _ => []
  | _ => []

/-! ## The aggregation loop of `main` -/

/-- A row, as the ordered dict literal built in `main`. -/
abbrev Row := List (String × JVal)

/-- The list of column names of a row. -/
def rowKeys (r : Row) : List String := r.map Prod.fst

/-- Field access in a row (keys are distinct in every row `main` builds). -/
def rowField (r : Row) (k : String) : Option JVal := List.lookup k r

/-- The external world as seen by `main`, keyed by the paths used for each
call: the introspection subprocess on the environment's interpreter, the
`os.stat` of the environment root, and the `pip check` subprocess. -/
structure EnvOracle where
  inspect : List String → InspectResult
  statEnv : List String → Except String ℚ
  pipCheck : List String → SubprocOutcome

/-- The dict row appended to `all_package_rows` for one package.  Each field
is fetched with `.get` and a default, so a malformed `env_info` or package
entry raises (`Except.error`), in evaluation order of the dict literal. -/
def pkgRowOf (envName : String) (envInfo pkg : JVal) : Except String Row := do
  let pv ← jget envInfo "Python_Version" (.jstr "")
  let pil ← jget envInfo "Python_Installation_Location" (.jstr "")
  let el ← jget envInfo "Environment_Location" (.jstr "")
  let pn ← jget pkg "Package" (.jstr "")
  let lat ← jget pkg "Last_Access_Time" (.jstr "")
  let dsa ← jget pkg "Days_Since_Last_Access" (.jstr "")
  pure [("Environment Name", .jstr envName), ("Python Version", pv),
        ("Python Installation Location", pil), ("Environment Location", el),
        ("Package", pn), ("Last Access Time", lat),
        ("Days Since Last Access", dsa)]

/-- The `for pkg in packages` body of `main` for one truthy payload `v`:
fetch `env_info` (default `{}`) and `packages` (default `[]`), then build one
row per package. -/
def buildPkgRows (envName : String) (v : JVal) : Except String (List Row) := do
  let envInfo ← jget v "env_info" (.jobj [])
  let packages ← jget v "packages" (.jarr [])
  let pkgs ← pyIter packages
  exMapM (pkgRowOf envName envInfo) pkgs

/-- The package rows contributed by one environment: none when the
introspection returned `None` or a falsy payload. -/
def envPkgRows (o : EnvOracle) (e : EnvRef) : Except String (List Row) :=
  match get_env_package_info (o.inspect e.pythonExe) with
  | none => .ok []
  | some v => if truthy v then buildPkgRows e.name v else .ok []

/-- The environment-level row appended for one environment: name, the
`os.stat` last-access time of the environment root (or descriptive error
text), and the captured `pip check` output. -/
def envRowFor (o : EnvOracle) (ctime : ℚ → String) (e : EnvRef) : Row :=
  [("Environment Name", .jstr e.name),
   ("Environment Last Access Time",
     .jstr (match o.statEnv e.path with
            | .ok t => ctime t
            | .error msg => "Error: " ++ msg)),
   ("Pip Check Output", .jstr (run_pip_check (o.pipCheck e.pythonExe)))]

/-- Process one environment: the package rows it contributes and its
environment row.  A raised exception aborts (propagates out of the loop). -/
def processEnv (o : EnvOracle) (ctime : ℚ → String) (e : EnvRef) :
    Except String (List Row × Row) := do
  let prs ← envPkgRows o e
  pure (prs, envRowFor o ctime e)

/-- The `for env_name, env_path, python_exe in environments` loop. -/
def runEnvs (o : EnvOracle) (ctime : ℚ → String) :
    List EnvRef → Except String (List Row × List Row)
  | [] => .ok ([], [])
  | e :: rest => do
    let pr ← processEnv o ctime e
    let rest2 ← runEnvs o ctime rest
    pure (pr.1 ++ rest2.1, pr.2 :: rest2.2)

/-- The columns of `pd.DataFrame(list_of_dicts)`: keys in order of first
appearance across the rows. -/
def dfColumns (rows : List Row) : List String :=
  rows.foldl (fun acc r => acc ++ (rowKeys r).filter (fun k => !acc.contains k)) []

/-- The documented PackageRow schema, in column order. -/
def packageColumns : List String :=
  ["Environment Name", "Python Version", "Python Installation Location",
   "Environment Location", "Package", "Last Access Time",
   "Days Since Last Access"]

/-- The documented EnvironmentRow schema, in column order. -/
def envColumns : List String :=
  ["Environment Name", "Environment Last Access Time", "Pip Check Output"]

/-- The outcome of one run of `main`. -/
inductive MainResult where
  | invalidRoot : MainResult
  | noEnvironments : MainResult
  | crashed (msg : String) : MainResult
  | ok (pkgRows : List Row) (envRows : List Row) : MainResult

/-- Model of `main`: validate the root (the `Option` is the result of resolving the
user-supplied path: `none` when `os.path.isdir` is false), locate the
environments, exit early when none are found, run the aggregation loop, and
otherwise finish with the two row tables.  An exception raised inside the
loop crashes the process before anything is written. -/
def mainRun (root? : Option FSNode) (mk : Marker) (o : EnvOracle)
    (ctime : ℚ → String) : MainResult :=
  match root? with
  | none => .invalidRoot
  | some t =>
    let environments := find_virtualenvs mk t []
    if environments.isEmpty then .noEnvironments
    else
      match runEnvs o ctime environments with
      | .error msg => .crashed msg
      | .ok (prs, ers) => .ok prs ers

/-- The process exit status of a run: `sys.exit(1)` on a missing root or an
empty result, `1` for an uncaught exception, `0` on success. -/
def exitCodeOf : MainResult → Nat
  | .ok _ _ => 0
  | _ => 1

/-- The CSV files written by a run: name, header row (the DataFrame columns)
and data rows.  Nothing is written unless the run completes. -/
def csvFilesOf : MainResult → List (String × List String × List Row)
  | .ok prs ers =>
    [("pip_envs_packages_info.csv", dfColumns prs, prs),
     ("pip_envs_env_info.csv", dfColumns ers, ers)]
  | _ => []

/-! ## Locator lemmas -/

/-- Membership in a list walk comes from one of the siblings. -/
theorem mem_findInList : ∀ {mk : Marker} (l : FSList) {p : List String} {r : EnvRef},
    r ∈ findInList mk l p → ∃ c ∈ l.toList, r ∈ find_virtualenvs mk c p
  | _, .nil, _, _, h => by simp [findInList] at h
  | mk, .cons c rest, p, r, h => by
    rw [findInList] at h
    rcases List.mem_append.mp h with h1 | h2
    · exact ⟨c, by simp [FSList.toList], h1⟩
    · obtain ⟨c2, hc2, hr⟩ := mem_findInList rest h2
      exact ⟨c2, by simp [FSList.toList]; exact Or.inr hc2, hr⟩

/-- A member of the sibling list contributes its name to the name list. -/
theorem name_mem_names : ∀ (l : FSList) {c : FSNode},
    c ∈ l.toList → c.name ∈ l.names
  | .nil, _, h => by simp [FSList.toList] at h
  | .cons c rest, d, h => by
    rw [FSList.toList] at h
    rw [FSList.names]
    rcases List.mem_cons.mp h with h1 | h2
    · subst h1; exact List.mem_cons_self _ _
    · exact List.mem_cons_of_mem _ (name_mem_names rest h2)

mutual
/-- Every environment emitted while visiting node `t` (whose parent path is
`p`) has `p ++ [t.name]` as a prefix of its path. -/
theorem find_path_above : ∀ (mk : Marker) (t : FSNode) (p : List String) (r : EnvRef),
    r ∈ find_virtualenvs mk t p → p ++ [t.name] <+: r.path
  | mk, .file n, p, r, h => by simp [find_virtualenvs] at h
  | mk, .dir n children, p, r, h => by
    rw [find_virtualenvs] at h
    by_cases hm : hasMarkerB mk children = true
    · rw [if_pos hm] at h
      rcases List.mem_singleton.mp h with rfl
      simp [FSNode.name]
    · rw [if_neg hm] at h
      obtain ⟨c, _, hpre⟩ := find_path_above_list mk children (p ++ [n]) r h
      calc p ++ [FSNode.name (.dir n children)]
          = p ++ [n] := by simp [FSNode.name]
        _ <+: (p ++ [n]) ++ [c.name] := List.prefix_append _ _
        _ <+: r.path := hpre

/-- List version of `find_path_above`: the emitting sibling is identified. -/
theorem find_path_above_list : ∀ (mk : Marker) (l : FSList) (p : List String) (r : EnvRef),
    r ∈ findInList mk l p → ∃ c ∈ l.toList, p ++ [c.name] <+: r.path
  | mk, .nil, p, r, h => by simp [findInList] at h
  | mk, .cons c rest, p, r, h => by
    rw [findInList] at h
    rcases List.mem_append.mp h with h1 | h2
    · exact ⟨c, by simp [FSList.toList], find_path_above mk c p r h1⟩
    · obtain ⟨c2, hc2, hpre⟩ := find_path_above_list mk rest p r h2
      exact ⟨c2, by simp [FSList.toList]; exact Or.inr hc2, hpre⟩
end

/-- Neither environment's root path is a strict ancestor of the other's. -/
def envNonAnc (a b : EnvRef) : Prop :=
  ¬ strictAncestor a.path b.path ∧ ¬ strictAncestor b.path a.path

/-- Two paths that extend the same parent path `p` by different component
names at position `p.length` are prefix-incomparable, so neither is a strict
ancestor of the other. -/
theorem not_anc_of_diverge {p : List String} {n1 n2 : String} (hne : n1 ≠ n2)
    {a b : List String} (ha : p ++ [n1] <+: a) (hb : p ++ [n2] <+: b) :
    ¬ strictAncestor a b := by
  rintro ⟨-, hpre⟩
  have h1 : p ++ [n1] <+: b := ha.trans hpre
  rcases List.prefix_or_prefix_of_prefix h1 hb with h | h
  · have heq := h.eq_of_length (by simp)
    exact hne (by simpa using heq)
  · have heq := h.eq_of_length (by simp)
    exact hne (by simpa using heq.symm)

mutual
/-- Pruning invariant, node form: over a well-formed tree the emitted
environments are pairwise non-ancestor. -/
theorem find_pairwise : ∀ (mk : Marker) (t : FSNode) (p : List String),
    wfFS t = true → (find_virtualenvs mk t p).Pairwise envNonAnc
  | mk, .file n, p, _ => by simp [find_virtualenvs]
  | mk, .dir n children, p, hwf => by
    rw [find_virtualenvs]
    by_cases hm : hasMarkerB mk children = true
    · rw [if_pos hm]; simp
    · rw [if_neg hm]
      rw [wfFS, Bool.and_eq_true] at hwf
      exact findInList_pairwise mk children (p ++ [n]) hwf.2 hwf.1

/-- Pruning invariant, sibling-list form: requires the sibling names to be
pairwise distinct. -/
theorem findInList_pairwise : ∀ (mk : Marker) (l : FSList) (p : List String),
    wfList l = true → nodupB l.names = true → (findInList mk l p).Pairwise envNonAnc
  | mk, .nil, p, _, _ => by simp [findInList]
  | mk, .cons c rest, p, hwf, hnd => by
    rw [findInList]
    rw [wfList, Bool.and_eq_true] at hwf
    rw [FSList.names, nodupB, Bool.and_eq_true] at hnd
    rw [List.pairwise_append]
    refine ⟨find_pairwise mk c p hwf.1, findInList_pairwise mk rest p hwf.2 hnd.2, ?_⟩
    intro a ha b hb
    have hpa : p ++ [c.name] <+: a.path := find_path_above mk c p a ha
    obtain ⟨c2, hc2, hpb⟩ := find_path_above_list mk rest p b hb
    have hname : c2.name ∈ rest.names := name_mem_names rest hc2
    have hne : c.name ≠ c2.name := by
      intro he
      have : rest.names.contains c.name = false := by
        simpa using hnd.1
      rw [he] at this
      simp [hname] at this
    exact ⟨not_anc_of_diverge hne hpa hpb, not_anc_of_diverge hne.symm hpb hpa⟩
end

mutual
/-- A tree without any interpreter marker emits no environment. -/
theorem find_nil_of_noMarkers : ∀ (mk : Marker) (t : FSNode) (p : List String),
    noMarkers mk t = true → find_virtualenvs mk t p = []
  | mk, .file n, p, _ => by simp [find_virtualenvs]
  | mk, .dir n children, p, h => by
    rw [noMarkers, Bool.and_eq_true] at h
    rw [find_virtualenvs,
      if_neg (by simpa using h.1 : ¬ hasMarkerB mk children = true)]
    exact findInList_nil_of_noMarkers mk children (p ++ [n]) h.2

/-- List version of `find_nil_of_noMarkers`. -/
theorem findInList_nil_of_noMarkers : ∀ (mk : Marker) (l : FSList) (p : List String),
    noMarkersList mk l = true → findInList mk l p = []
  | mk, .nil, p, _ => by simp [findInList]
  | mk, .cons c rest, p, h => by
    rw [noMarkersList, Bool.and_eq_true] at h
    rw [findInList, find_nil_of_noMarkers mk c p h.1,
      findInList_nil_of_noMarkers mk rest p h.2]
    rfl
end

/-! ## Aggregation-loop lemmas -/

/-- Splitting an `Except` bind that succeeded. -/
theorem except_bind_ok {α β : Type} {x : Except String α} {f : α → Except String β}
    {b : β} (h : (x >>= f) = .ok b) : ∃ a, x = .ok a ∧ f a = .ok b := by
  cases x with
  | ok a => exact ⟨a, rfl, h⟩
  | error e => simp [Bind.bind, Except.bind] at h

/-- Every element of a successful `exMapM` is the image of a source element. -/
theorem exMapM_ok_mem {α β : Type} {f : α → Except String β} :
    ∀ {xs : List α} {ys : List β}, exMapM f xs = .ok ys →
      ∀ y ∈ ys, ∃ x ∈ xs, f x = .ok y
  | [], ys, h, y, hy => by
    rw [exMapM] at h
    cases h
    simp at hy
  | x :: xs, ys, h, y, hy => by
    rw [exMapM] at h
    obtain ⟨b, hb, h2⟩ := except_bind_ok h
    obtain ⟨bs, hbs, h3⟩ := except_bind_ok h2
    cases h3
    rcases List.mem_cons.mp hy with rfl | hmem
    · exact ⟨x, List.mem_cons_self _ _, hb⟩
    · obtain ⟨x2, hx2, hfx2⟩ := exMapM_ok_mem hbs y hmem
      exact ⟨x2, List.mem_cons_of_mem _ hx2, hfx2⟩

/-- Lemma: `exMapM` succeeds when every element succeeds. -/
theorem exMapM_total {α β : Type} {f : α → Except String β} :
    ∀ {xs : List α}, (∀ x ∈ xs, ∃ y, f x = .ok y) →
      ∃ ys, exMapM f xs = .ok ys
  | [], _ => ⟨[], rfl⟩
  | x :: xs, h => by
    obtain ⟨y, hy⟩ := h x (List.mem_cons_self _ _)
    obtain ⟨ys, hys⟩ := exMapM_total (fun a ha => h a (List.mem_cons_of_mem _ ha))
    exact ⟨y :: ys, by rw [exMapM, hy]; simp [Bind.bind, Except.bind, hys]; rfl⟩

/-- A successfully built package row has exactly the documented columns, in
order, and carries its environment's name in the `Environment Name` field. -/
theorem pkgRowOf_ok {envName : String} {envInfo pkg : JVal} {r : Row}
    (h : pkgRowOf envName envInfo pkg = .ok r) :
    rowKeys r = packageColumns ∧ rowField r "Environment Name" = some (.jstr envName) := by
  rw [pkgRowOf] at h
  obtain ⟨pv, _, h⟩ := except_bind_ok h
  obtain ⟨pil, _, h⟩ := except_bind_ok h
  obtain ⟨el, _, h⟩ := except_bind_ok h
  obtain ⟨pn, _, h⟩ := except_bind_ok h
  obtain ⟨lat, _, h⟩ := except_bind_ok h
  obtain ⟨dsa, _, h⟩ := except_bind_ok h
  cases h
  constructor
  · rfl
  · rfl

/-- Building a package row from object-shaped inputs never raises. -/
theorem pkgRowOf_total {envName : String} {gs hs : List (String × JVal)} :
    ∃ r, pkgRowOf envName (.jobj gs) (.jobj hs) = .ok r := by
  rw [pkgRowOf]
  exact ⟨_, rfl⟩

/-- When the effective `env_info` object lacks a metadata key, the
corresponding row field is the empty-string default. -/
theorem pkgRowOf_default {envName : String} {gs : List (String × JVal)} {pkg : JVal}
    {r : Row} (h : pkgRowOf envName (.jobj gs) pkg = .ok r) :
    (olookup gs "Python_Version" = none →
      rowField r "Python Version" = some (.jstr "")) ∧
    (olookup gs "Python_Installation_Location" = none →
      rowField r "Python Installation Location" = some (.jstr "")) ∧
    (olookup gs "Environment_Location" = none →
      rowField r "Environment Location" = some (.jstr "")) := by
  rw [pkgRowOf] at h
  obtain ⟨pv, hpv, h⟩ := except_bind_ok h
  obtain ⟨pil, hpil, h⟩ := except_bind_ok h
  obtain ⟨el, hel, h⟩ := except_bind_ok h
  obtain ⟨pn, _, h⟩ := except_bind_ok h
  obtain ⟨lat, _, h⟩ := except_bind_ok h
  obtain ⟨dsa, _, h⟩ := except_bind_ok h
  cases h
  refine ⟨fun hnone => ?_, fun hnone => ?_, fun hnone => ?_⟩
  · rw [jget, hnone] at hpv
    cases hpv
    rfl
  · rw [jget, hnone] at hpil
    cases hpil
    rfl
  · rw [jget, hnone] at hel
    cases hel
    rfl

/-- Every row contributed by one environment has the documented columns and
references that environment's name. -/
theorem envPkgRows_field {o : EnvOracle} {e : EnvRef} {rs : List Row}
    (h : envPkgRows o e = .ok rs) :
    ∀ r ∈ rs, rowKeys r = packageColumns ∧
      rowField r "Environment Name" = some (.jstr e.name) := by
  rw [envPkgRows] at h
  cases hi : get_env_package_info (o.inspect e.pythonExe) with
  | none =>
    simp only [hi] at h
    cases h
    intro r hr
    simp at hr
  | some v =>
    simp only [hi] at h
    by_cases ht : truthy v = true
    · rw [if_pos ht] at h
      rw [buildPkgRows] at h
      obtain ⟨envInfo, _, h⟩ := except_bind_ok h
      obtain ⟨packages, _, h⟩ := except_bind_ok h
      obtain ⟨pkgs, _, h⟩ := except_bind_ok h
      intro r hr
      obtain ⟨pkg, _, hpk⟩ := exMapM_ok_mem h r hr
      exact pkgRowOf_ok hpk
    · rw [if_neg ht] at h
      cases h
      intro r hr
      simp at hr

/-- A failed introspection contributes no package rows and raises nothing. -/
theorem envPkgRows_of_failure {o : EnvOracle} {e : EnvRef}
    (h : inspectionFailed (o.inspect e.pythonExe) = true) :
    envPkgRows o e = .ok [] := by
  rw [envPkgRows]
  cases hins : o.inspect e.pythonExe with
  | payload v => rw [hins] at h; simp [inspectionFailed] at h
  | launchFailure => rfl
  | nonZeroExit => rfl
  | malformedPayload => rfl

/-- When no environment's processing raises, the loop visits every
environment and appends exactly one environment row per environment, in
order; all package rows are well-formed and name a visited environment. -/
theorem runEnvs_ok (o : EnvOracle) (ctime : ℚ → String) :
    ∀ (envs : List EnvRef), (∀ e ∈ envs, ∃ rs, envPkgRows o e = .ok rs) →
      ∃ prs, runEnvs o ctime envs = .ok (prs, envs.map (envRowFor o ctime)) ∧
        ∀ r ∈ prs, ∃ e ∈ envs, rowKeys r = packageColumns ∧
          rowField r "Environment Name" = some (.jstr e.name)
  | [], _ => ⟨[], by rw [runEnvs]; rfl, by simp⟩
  | e :: rest, h => by
    obtain ⟨rs, hrs⟩ := h e (List.mem_cons_self _ _)
    obtain ⟨prs, hrun, hfield⟩ :=
      runEnvs_ok o ctime rest (fun a ha => h a (List.mem_cons_of_mem _ ha))
    refine ⟨rs ++ prs, ?_, ?_⟩
    · rw [runEnvs, processEnv]
      simp only [hrs, hrun, Bind.bind, Except.bind, List.map, pure, Except.pure]
    · intro r hr
      rcases List.mem_append.mp hr with h1 | h2
      · exact ⟨e, List.mem_cons_self _ _, envPkgRows_field hrs r h1⟩
      · obtain ⟨e2, he2, hf⟩ := hfield r h2
        exact ⟨e2, List.mem_cons_of_mem _ he2, hf⟩

/-- Once the accumulated columns equal the common key list, further rows with
the same keys add nothing. -/
theorem foldl_cols_fixed {K : List String} :
    ∀ (rows : List Row), (∀ r ∈ rows, rowKeys r = K) →
      rows.foldl (fun acc r => acc ++ (rowKeys r).filter (fun k => !acc.contains k)) K = K
  | [], _ => rfl
  | r :: rest, h => by
    have hk : rowKeys r = K := h r (List.mem_cons_self _ _)
    have hstep : K ++ (rowKeys r).filter (fun k => !K.contains k) = K := by
      rw [hk, List.filter_eq_nil_iff.mpr (by intro a ha; simp [ha]), List.append_nil]
    rw [List.foldl_cons, hstep]
    exact foldl_cols_fixed rest (fun a ha => h a (List.mem_cons_of_mem _ ha))

/-- The DataFrame columns of a nonempty table whose rows all share one key
list are exactly that key list. -/
theorem dfColumns_const {K : List String} {rows : List Row} (hne : rows ≠ [])
    (h : ∀ r ∈ rows, rowKeys r = K) : dfColumns rows = K := by
  cases rows with
  | nil => cases hne rfl
  | cons r rest =>
    rw [dfColumns, List.foldl_cons]
    have h0 : List.nil ++ (rowKeys r).filter (fun k => !List.contains [] k) = K := by
      rw [h r (List.mem_cons_self _ _)]
      simp [List.contains_nil]
    rw [h0]
    exact foldl_cols_fixed rest (fun a ha => h a (List.mem_cons_of_mem _ ha))

/-- Environment rows always carry the documented EnvironmentRow columns. -/
theorem envRowFor_keys (o : EnvOracle) (ctime : ℚ → String) (e : EnvRef) :
    rowKeys (envRowFor o ctime e) = envColumns := rfl

/-- The environment row's name field. -/
theorem envRowFor_name (o : EnvOracle) (ctime : ℚ → String) (e : EnvRef) :
    rowField (envRowFor o ctime e) "Environment Name" = some (.jstr e.name) := rfl

/-! ## Concrete fixtures -/

/-- A directory shaped like a virtual environment: `n/bin/python`. -/
def envDirNamed (n : String) : FSNode :=
  .dir n (.cons (.dir "bin" (.cons (.file "python") .nil)) .nil)

/-- A root with two environments that share the base name `venv`:
`root/a/venv` and `root/b/venv`. -/
def demoTwinTree : FSNode :=
  .dir "root" (.cons (.dir "a" (.cons (envDirNamed "venv") .nil))
    (.cons (.dir "b" (.cons (envDirNamed "venv") .nil)) .nil))

/-- A root with the single environment `root/venv`. -/
def demoSoloTree : FSNode :=
  .dir "root" (.cons (envDirNamed "venv") .nil)

/-- The environment `root/a/venv` as discovered by the locator. -/
def envA : EnvRef :=
  ⟨"venv", ["root", "a", "venv"], ["root", "a", "venv", "bin", "python"]⟩

/-- The environment `root/b/venv` as discovered by the locator. -/
def envB : EnvRef :=
  ⟨"venv", ["root", "b", "venv"], ["root", "b", "venv", "bin", "python"]⟩

/-- The environment `root/venv` as discovered by the locator. -/
def soloEnv : EnvRef :=
  ⟨"venv", ["root", "venv"], ["root", "venv", "bin", "python"]⟩

/-- A `time.ctime` stand-in. -/
def ctimeDemo : ℚ → String := fun _ => "Wed Jan 10 10:00:00 2024"

/-- An oracle whose introspection subprocess always exits non-zero. -/
def failOracle : EnvOracle :=
  ⟨fun _ => .nonZeroExit, fun _ => .ok 0,
   fun _ => .completed 1 "pkg 1.0 requires missing" "warn"⟩

/-- An oracle that always returns a trivial, useless world. -/
def nullOracle : EnvOracle :=
  ⟨fun _ => .launchFailure, fun _ => .error "stat failed",
   fun _ => .launchFailure "no such file"⟩

/-! ## Claims -/

/-- C7: for every supplied root path that does not exist or is not a
directory, the run fails immediately: the outcome is `invalidRoot`, the exit
status is non-zero, and no output files are written. -/
theorem c7_invalid_root (mk : Marker) (o : EnvOracle) (ctime : ℚ → String) :
    mainRun none mk o ctime = .invalidRoot ∧
    exitCodeOf (mainRun none mk o ctime) ≠ 0 ∧
    csvFilesOf (mainRun none mk o ctime) = [] :=
  ⟨rfl, by simp [mainRun, exitCodeOf], rfl⟩

/-- C8: a root directory with no interpreter markers anywhere makes `locate`
return the empty sequence (not an error), and the run then stops with a
non-zero status without writing any output file. -/
theorem c8_no_environments (mk : Marker) (o : EnvOracle) (ctime : ℚ → String)
    (t : FSNode) (h : noMarkers mk t = true) :
    find_virtualenvs mk t [] = [] ∧
    mainRun (some t) mk o ctime = .noEnvironments ∧
    exitCodeOf (mainRun (some t) mk o ctime) ≠ 0 ∧
    csvFilesOf (mainRun (some t) mk o ctime) = [] := by
  have hf : find_virtualenvs mk t [] = [] := find_nil_of_noMarkers mk t [] h
  have hm : mainRun (some t) mk o ctime = .noEnvironments := by
    simp [mainRun, hf]
  exact ⟨hf, hm, by rw [hm]; simp [exitCodeOf], by rw [hm]; rfl⟩

/-- Witness for C8 on a concrete markerless tree. -/
theorem c8_witness :
    noMarkers posixMarker (.dir "r" (.cons (.file "x") .nil)) = true ∧
    (find_virtualenvs posixMarker (.dir "r" (.cons (.file "x") .nil)) [] = [] ∧
     mainRun (some (.dir "r" (.cons (.file "x") .nil))) posixMarker nullOracle ctimeDemo =
       .noEnvironments ∧
     exitCodeOf (mainRun (some (.dir "r" (.cons (.file "x") .nil))) posixMarker
       nullOracle ctimeDemo) ≠ 0 ∧
     csvFilesOf (mainRun (some (.dir "r" (.cons (.file "x") .nil))) posixMarker
       nullOracle ctimeDemo) = []) :=
  ⟨by decide, c8_no_environments posixMarker nullOracle ctimeDemo _ (by decide)⟩

/-- C9: the marker test applies to the root directory itself before any
descent: a root that directly contains the interpreter marker is returned as
the single discovered environment, named by the root's base name, with the
root as its path. -/
theorem c9_root_marker (mk : Marker) (n : String) (children : FSList)
    (h : hasMarkerB mk children = true) :
    find_virtualenvs mk (.dir n children) [] =
      [⟨FSNode.name (.dir n children), [n], [n, mk.1, mk.2]⟩] := by
  rw [find_virtualenvs, if_pos h]
  rfl

/-- Witness for C9: a root that is itself an environment. -/
theorem c9_witness :
    hasMarkerB posixMarker (.cons (.dir "bin" (.cons (.file "python") .nil)) .nil) = true ∧
    find_virtualenvs posixMarker (envDirNamed "venv") [] =
      [⟨FSNode.name (envDirNamed "venv"), ["venv"], ["venv", "bin", "python"]⟩] :=
  ⟨by decide, c9_root_marker posixMarker "venv" _ (by decide)⟩

/-- C2: over a well-formed tree (sibling names distinct, as on a real
filesystem) the locator never emits two environments one of whose root paths
is a strict ancestor directory of the other's: a matched directory is a leaf
of the traversal. -/
theorem c2_locator_pruning (mk : Marker) (t : FSNode) (p : List String)
    (h : wfFS t = true) :
    (find_virtualenvs mk t p).Pairwise envNonAnc :=
  find_pairwise mk t p h

/-- Witness for C2 on the two-environment tree. -/
theorem c2_witness :
    wfFS demoTwinTree = true ∧
    (find_virtualenvs posixMarker demoTwinTree []).Pairwise envNonAnc :=
  ⟨by decide, c2_locator_pruning posixMarker demoTwinTree [] (by decide)⟩

/-- C4 counterexample: on a zero exit the captured text is the stripped
stdout alone — the stderr stream is dropped, so the result is not the
combined output the claim promises for every exit status. -/
theorem c4_counterexample :
    run_pip_check (.completed 0 "No broken requirements found." "WARNING: retry") =
      "No broken requirements found." ∧
    "No broken requirements found." ≠
      "No broken requirements found." ++ "\n" ++ "WARNING: retry" :=
  ⟨rfl, by decide⟩

/-- C4 (amended): a non-zero exit (inconsistencies detected) is captured as
the stripped stdout and stderr joined by a newline, never raised; a zero exit
is captured as the stripped stdout alone; a launch failure produces
descriptive error text in place of check output, never an exception. -/
theorem c4_pip_check_capture (out err msg : String) (c : Nat) (hc : c ≠ 0) :
    run_pip_check (.completed c out err) = pyStrip out ++ "\n" ++ pyStrip err ∧
    run_pip_check (.completed 0 out err) = pyStrip out ∧
    run_pip_check (.launchFailure msg) = "Error running pip check: " ++ msg := by
  refine ⟨?_, rfl, rfl⟩
  cases c with
  | zero => cases hc rfl
  | succ k => rfl

/-- Witness for the amended C4 at concrete streams. -/
theorem c4_witness :
    run_pip_check (.completed 1 "a conflict" " b missing ") =
      pyStrip "a conflict" ++ "\n" ++ pyStrip " b missing " ∧
    run_pip_check (.completed 0 "a conflict" " b missing ") = pyStrip "a conflict" ∧
    run_pip_check (.launchFailure "boom") = "Error running pip check: " ++ "boom" :=
  c4_pip_check_capture "a conflict" " b missing " "boom" 1 (by decide)

/-- A successful per-environment package pass determines the whole step. -/
theorem processEnv_eq {o : EnvOracle} {ctime : ℚ → String} {e : EnvRef}
    {rs : List Row} (h : envPkgRows o e = .ok rs) :
    processEnv o ctime e = .ok (rs, envRowFor o ctime e) := by
  rw [processEnv, h]
  rfl

/-- Inversion of a successful loop run: the environment rows are exactly one
per environment in order, and every package row is well-formed and names one
of the environments. -/
theorem runEnvs_ok_inv (o : EnvOracle) (ctime : ℚ → String) :
    ∀ (envs : List EnvRef) (prs ers : List Row),
      runEnvs o ctime envs = .ok (prs, ers) →
      ers = envs.map (envRowFor o ctime) ∧
      ∀ r ∈ prs, rowKeys r = packageColumns ∧
        ∃ e ∈ envs, rowField r "Environment Name" = some (.jstr e.name)
  | [], prs, ers, h => by
    rw [runEnvs] at h
    cases h
    exact ⟨rfl, by simp⟩
  | e :: rest, prs, ers, h => by
    rw [runEnvs] at h
    obtain ⟨pr, hpr, h⟩ := except_bind_ok h
    obtain ⟨rest2, hrest2, h⟩ := except_bind_ok h
    cases h
    rw [processEnv] at hpr
    obtain ⟨rs, hrs, hpure⟩ := except_bind_ok hpr
    cases hpure
    obtain ⟨ih1, ih2⟩ := runEnvs_ok_inv o ctime rest rest2.1 rest2.2 (by
      cases rest2
      exact hrest2)
    refine ⟨by rw [List.map_cons, ← ih1], ?_⟩
    intro r hr
    rcases List.mem_append.mp hr with h1 | h2
    · obtain ⟨hk, hf⟩ := envPkgRows_field hrs r h1
      exact ⟨hk, e, List.mem_cons_self _ _, hf⟩
    · obtain ⟨hk, e2, he2, hf⟩ := ih2 r h2
      exact ⟨hk, e2, List.mem_cons_of_mem _ he2, hf⟩

/-- Does the row's `Environment Name` field hold the string `n`? -/
def rowNameIs (n : String) (r : Row) : Bool :=
  match rowField r "Environment Name" with
  | some (.jstr s) => s == n
  | _ => false

/-- C1: a failed introspection subprocess is recovered locally: that
environment contributes no package rows, its health check still runs and its
single environment row is still produced, and the loop still yields one row
per environment with no short-circuiting. -/
theorem c1_inspection_failure_recovered (o : EnvOracle) (ctime : ℚ → String)
    (envs : List EnvRef) (E : EnvRef) (hE : E ∈ envs)
    (hfail : inspectionFailed (o.inspect E.pythonExe) = true)
    (hok : ∀ e ∈ envs, ∃ rs, envPkgRows o e = .ok rs) :
    processEnv o ctime E = .ok ([], envRowFor o ctime E) ∧
    rowField (envRowFor o ctime E) "Pip Check Output" =
      some (.jstr (run_pip_check (o.pipCheck E.pythonExe))) ∧
    ∃ prs, runEnvs o ctime envs = .ok (prs, envs.map (envRowFor o ctime)) ∧
      (envs.map (envRowFor o ctime)).length = envs.length ∧
      envRowFor o ctime E ∈ envs.map (envRowFor o ctime) := by
  refine ⟨processEnv_eq (envPkgRows_of_failure hfail), rfl, ?_⟩
  obtain ⟨prs, hrun, _⟩ := runEnvs_ok o ctime envs hok
  exact ⟨prs, hrun, by simp, List.mem_map_of_mem _ hE⟩

/-- Witness for C1: both environments of the twin tree fail introspection;
each still receives its environment row. -/
theorem c1_witness :
    processEnv failOracle ctimeDemo envA = .ok ([], envRowFor failOracle ctimeDemo envA) ∧
    rowField (envRowFor failOracle ctimeDemo envA) "Pip Check Output" =
      some (.jstr (run_pip_check (failOracle.pipCheck envA.pythonExe))) ∧
    ∃ prs, runEnvs failOracle ctimeDemo [envA, envB] =
        .ok (prs, [envA, envB].map (envRowFor failOracle ctimeDemo)) ∧
      ([envA, envB].map (envRowFor failOracle ctimeDemo)).length = [envA, envB].length ∧
      envRowFor failOracle ctimeDemo envA ∈ [envA, envB].map (envRowFor failOracle ctimeDemo) :=
  c1_inspection_failure_recovered failOracle ctimeDemo [envA, envB] envA
    (by decide) rfl (fun _ _ => ⟨[], envPkgRows_of_failure rfl⟩)

/-- The environment-row table of a finished run. -/
def envRowsOf : MainResult → List Row
  | .ok _ ers => ers
  | _ => []

/-- C5 counterexample: the twin tree discovers the environment `root/a/venv`
whose name is `venv`, yet the finished run's environment table holds two rows
whose `Environment Name` is `venv` (the second comes from `root/b/venv`),
so "exactly one EnvironmentRow with E's name" fails. -/
theorem c5_counterexample :
    envA ∈ find_virtualenvs posixMarker demoTwinTree [] ∧
    envA.name = "venv" ∧
    ((envRowsOf (mainRun (some demoTwinTree) posixMarker failOracle ctimeDemo)).filter
      (rowNameIs "venv")).length = 2 ∧
    (2 : Nat) ≠ 1 := by
  refine ⟨by decide, rfl, rfl, by decide⟩

/-- C5 (amended): the loop appends exactly one EnvironmentRow per discovered
environment, in order, each carrying that environment's name — so the number
of rows bearing a name equals the number of discovered environments bearing
it (one when basenames are unique, more when they collide) — and every
PackageRow's environment-name field agrees with one of the appended
EnvironmentRows. -/
theorem c5_env_rows_per_environment (o : EnvOracle) (ctime : ℚ → String)
    (envs : List EnvRef)
    (hok : ∀ e ∈ envs, ∃ rs, envPkgRows o e = .ok rs) :
    ∃ prs, runEnvs o ctime envs = .ok (prs, envs.map (envRowFor o ctime)) ∧
      (envs.map (envRowFor o ctime)).length = envs.length ∧
      (∀ n, ((envs.map (envRowFor o ctime)).filter (rowNameIs n)).length =
        (envs.filter (fun e => e.name == n)).length) ∧
      (∀ r ∈ prs, ∃ er ∈ envs.map (envRowFor o ctime),
        rowField er "Environment Name" = rowField r "Environment Name") := by
  obtain ⟨prs, hrun, hfield⟩ := runEnvs_ok o ctime envs hok
  refine ⟨prs, hrun, by simp, ?_, ?_⟩
  · intro n
    rw [List.filter_map, List.length_map]
    have hcong : (rowNameIs n) ∘ (envRowFor o ctime) = fun e => e.name == n :=
      funext (fun e => rfl)
    rw [hcong]
  · intro r hr
    obtain ⟨e, he, _, hf⟩ := hfield r hr
    exact ⟨envRowFor o ctime e, List.mem_map_of_mem _ he, by rw [hf]; rfl⟩

/-- Witness for the amended C5 on the twin tree with failing inspections. -/
theorem c5_witness :
    ∃ prs, runEnvs failOracle ctimeDemo [envA, envB] =
        .ok (prs, [envA, envB].map (envRowFor failOracle ctimeDemo)) ∧
      ([envA, envB].map (envRowFor failOracle ctimeDemo)).length = [envA, envB].length ∧
      (∀ n, (([envA, envB].map (envRowFor failOracle ctimeDemo)).filter (rowNameIs n)).length =
        ([envA, envB].filter (fun e => e.name == n)).length) ∧
      (∀ r ∈ prs, ∃ er ∈ [envA, envB].map (envRowFor failOracle ctimeDemo),
        rowField er "Environment Name" = rowField r "Environment Name") :=
  c5_env_rows_per_environment failOracle ctimeDemo [envA, envB]
    (fun _ _ => ⟨[], envPkgRows_of_failure rfl⟩)

/-- C6 counterexample: when the only environment's introspection fails, the
run still finishes and writes both files, but the package CSV's header is
empty — `pd.DataFrame([])` has no columns — instead of the documented
PackageRow schema.  (The zero-package-row case is reachable.) -/
theorem c6_counterexample :
    csvFilesOf (mainRun (some demoSoloTree) posixMarker failOracle ctimeDemo) =
      [("pip_envs_packages_info.csv", [], []),
       ("pip_envs_env_info.csv", envColumns, [envRowFor failOracle ctimeDemo soloEnv])] ∧
    ([] : List String) ≠ packageColumns :=
  ⟨rfl, by decide⟩

/-- C6 (amended): whenever a run finishes and writes the two files, the
environment CSV's header is exactly the documented EnvironmentRow schema
(that table is never empty), and the package CSV's header is exactly the
documented PackageRow schema whenever at least one package row exists; with
zero package rows the package CSV is written with an empty header. -/
theorem c6_csv_headers (root? : Option FSNode) (mk : Marker) (o : EnvOracle)
    (ctime : ℚ → String) (prs ers : List Row)
    (h : mainRun root? mk o ctime = .ok prs ers) :
    csvFilesOf (mainRun root? mk o ctime) =
      [("pip_envs_packages_info.csv", dfColumns prs, prs),
       ("pip_envs_env_info.csv", dfColumns ers, ers)] ∧
    dfColumns ers = envColumns ∧
    (prs ≠ [] → dfColumns prs = packageColumns) ∧
    (prs = [] → dfColumns prs = []) := by
  refine ⟨by rw [h]; rfl, ?_⟩
  cases root? with
  | none => simp [mainRun] at h
  | some t =>
    rw [mainRun] at h
    by_cases hemp : (find_virtualenvs mk t []).isEmpty = true
    · rw [if_pos hemp] at h
      cases h
    · rw [if_neg hemp] at h
      cases hrun : runEnvs o ctime (find_virtualenvs mk t []) with
      | error msg => rw [hrun] at h; cases h
      | ok pair =>
        rw [hrun] at h
        cases h
        obtain ⟨hers, hprs⟩ :=
          runEnvs_ok_inv o ctime (find_virtualenvs mk t []) pair.1 pair.2 (by
            cases pair
            exact hrun)
        have henv : find_virtualenvs mk t [] ≠ [] := by
          intro hnil
          rw [hnil] at hemp
          exact hemp rfl
        refine ⟨?_, ?_, fun hp => by rw [hp]; rfl⟩
        · rw [hers]
          refine dfColumns_const ?_ ?_
          · intro hnil
            exact henv (List.map_eq_nil_iff.mp hnil)
          · intro r hr
            obtain ⟨e, _, rfl⟩ := List.mem_map.mp hr
            exact envRowFor_keys o ctime e
        · intro hne
          exact dfColumns_const hne (fun r hr => (hprs r hr).1)

/-- Witness for the amended C6: a finished run of the twin tree with failing
inspections writes the environment CSV with the documented header and the
empty package table with an empty header. -/
theorem c6_witness :
    csvFilesOf (mainRun (some demoTwinTree) posixMarker failOracle ctimeDemo) =
      [("pip_envs_packages_info.csv", dfColumns [], []),
       ("pip_envs_env_info.csv",
        dfColumns [envRowFor failOracle ctimeDemo envA, envRowFor failOracle ctimeDemo envB],
        [envRowFor failOracle ctimeDemo envA, envRowFor failOracle ctimeDemo envB])] ∧
    dfColumns [envRowFor failOracle ctimeDemo envA, envRowFor failOracle ctimeDemo envB] =
      envColumns ∧
    (([] : List Row) ≠ [] → dfColumns [] = packageColumns) ∧
    (([] : List Row) = [] → dfColumns ([] : List Row) = []) :=
  c6_csv_headers (some demoTwinTree) posixMarker failOracle ctimeDemo []
    [envRowFor failOracle ctimeDemo envA, envRowFor failOracle ctimeDemo envB] rfl

/-- The field of a JSON object, for stating properties of payload entries. -/
def jfield (v : JVal) (k : String) : Option JVal :=
  match v with
  | .jobj fields => olookup fields k
  | _ => none

/-- C3: each inspected distribution's entry in the payload carries, when the
derived on-disk folder is missing, the fixed "not found" sentinel as its
access-time field and a null (absent) days field — never a stale or zero
value — and, when the folder exists, the folder's last-access timestamp
formatted by `time.ctime` together with the rounded days elapsed since now. -/
theorem c3_package_access_fields (ctime : ℚ → String) (now : ℚ)
    (stat : List String → Option ℚ) (ver exe pre : String)
    (dists : List DistInfo) (d : DistInfo) (hd : d ∈ dists) :
    mkPkgEntry ctime now stat d ∈
      payloadPackages (mkPayload ctime now stat ver exe pre dists) ∧
    (stat (pkgFolder d) = none →
      jfield (mkPkgEntry ctime now stat d) "Last_Access_Time" =
        some (.jstr notFoundSentinel) ∧
      jfield (mkPkgEntry ctime now stat d) "Days_Since_Last_Access" = some .jnull) ∧
    (∀ a, stat (pkgFolder d) = some a →
      jfield (mkPkgEntry ctime now stat d) "Last_Access_Time" =
        some (.jstr (ctime a)) ∧
      jfield (mkPkgEntry ctime now stat d) "Days_Since_Last_Access" =
        some (.jnum (round2 ((now - a) / (24 * 3600))))) := by
  refine ⟨?_, fun hnone => ?_, fun a ha => ?_⟩
  · show mkPkgEntry ctime now stat d ∈ dists.map (mkPkgEntry ctime now stat)
    exact List.mem_map_of_mem _ hd
  · rw [mkPkgEntry, hnone]
    exact ⟨rfl, rfl⟩
  · rw [mkPkgEntry, ha]
    exact ⟨rfl, rfl⟩

/-- The distribution used by the C3 witness. -/
def c3dist : DistInfo := ⟨"scikit-learn", ["lib"]⟩

/-- Witness for C3 with a filesystem on which the derived folder
`lib/scikit_learn` does not exist. -/
theorem c3_witness :
    c3dist ∈ [c3dist] ∧
    (mkPkgEntry ctimeDemo 0 (fun _ => none) c3dist ∈
      payloadPackages (mkPayload ctimeDemo 0 (fun _ => none) "3.11" "exe" "pre" [c3dist]) ∧
    ((fun (_ : List String) => (none : Option ℚ)) (pkgFolder c3dist) = none →
      jfield (mkPkgEntry ctimeDemo 0 (fun _ => none) c3dist) "Last_Access_Time" =
        some (.jstr notFoundSentinel) ∧
      jfield (mkPkgEntry ctimeDemo 0 (fun _ => none) c3dist) "Days_Since_Last_Access" =
        some .jnull) ∧
    (∀ a, (fun (_ : List String) => (none : Option ℚ)) (pkgFolder c3dist) = some a →
      jfield (mkPkgEntry ctimeDemo 0 (fun _ => none) c3dist) "Last_Access_Time" =
        some (.jstr (ctimeDemo a)) ∧
      jfield (mkPkgEntry ctimeDemo 0 (fun _ => none) c3dist) "Days_Since_Last_Access" =
        some (.jnum (round2 ((0 - a) / (24 * 3600)))))) :=
  ⟨by decide,
   c3_package_access_fields ctimeDemo 0 (fun _ => none) "3.11" "exe" "pre" [c3dist]
     c3dist (by decide)⟩

/-- Rewriting a bind whose first component is known to succeed. -/
theorem bind_ok_cong {α β : Type} {x : Except String α} {f : α → Except String β}
    {a : α} {b : Except String β} (hx : x = .ok a) (hf : f a = b) : (x >>= f) = b := by
  rw [hx]
  exact hf

/-- Building the package rows of one environment from an object payload whose
`env_info` member (when present) is an object and whose `packages` member
(when present) is an array of objects never raises; missing metadata keys
fall back to the empty-string default in every produced row. -/
theorem buildPkgRows_shape {name : String} {fs : List (String × JVal)}
    (hinfo : olookup fs "env_info" = none ∨
      ∃ gs, olookup fs "env_info" = some (.jobj gs))
    (hpkgs : olookup fs "packages" = none ∨
      ∃ xs, olookup fs "packages" = some (.jarr xs) ∧ ∀ x ∈ xs, ∃ hs, x = .jobj hs) :
    ∃ rs, buildPkgRows name (.jobj fs) = .ok rs ∧
      ∀ gs, (olookup fs "env_info").getD (.jobj []) = .jobj gs →
        ∀ r ∈ rs,
          (olookup gs "Python_Version" = none →
            rowField r "Python Version" = some (.jstr "")) ∧
          (olookup gs "Python_Installation_Location" = none →
            rowField r "Python Installation Location" = some (.jstr "")) ∧
          (olookup gs "Environment_Location" = none →
            rowField r "Environment Location" = some (.jstr "")) := by
  obtain ⟨gs0, hgs0⟩ : ∃ gs0, (olookup fs "env_info").getD (.jobj []) = .jobj gs0 := by
    rcases hinfo with h | ⟨gs, hgs⟩
    · exact ⟨[], by rw [h]; rfl⟩
    · exact ⟨gs, by rw [hgs]; rfl⟩
  obtain ⟨xs0, hxs0, hobj⟩ : ∃ xs0, (olookup fs "packages").getD (.jarr []) = .jarr xs0 ∧
      ∀ x ∈ xs0, ∃ hs, x = .jobj hs := by
    rcases hpkgs with h | ⟨xs, hxs, hx⟩
    · exact ⟨[], by rw [h]; rfl, by intro x hx; simp at hx⟩
    · exact ⟨xs, by rw [hxs]; rfl, hx⟩
  obtain ⟨rs, hrs⟩ : ∃ rs, exMapM (pkgRowOf name (.jobj gs0)) xs0 = .ok rs := by
    apply exMapM_total
    intro x hx
    obtain ⟨hs, rfl⟩ := hobj x hx
    obtain ⟨r, hr⟩ := @pkgRowOf_total name gs0 hs
    exact ⟨r, hr⟩
  refine ⟨rs, ?_, ?_⟩
  · rw [buildPkgRows]
    refine bind_ok_cong (by rw [jget, hgs0]) ?_
    refine bind_ok_cong (by rw [jget, hxs0]) ?_
    exact bind_ok_cong (rfl : pyIter (.jarr xs0) = .ok xs0) hrs
  · intro gs hgs r hr
    have hgseq : gs = gs0 := by
      rw [hgs0] at hgs
      cases hgs
      rfl
    subst hgseq
    obtain ⟨pkg, _, hrow⟩ := exMapM_ok_mem hrs r hr
    exact pkgRowOf_default hrow

/-- The payload shapes under which the aggregation loop is exception-free: any
subprocess failure, or a JSON object whose `env_info` member (when present) is
an object and whose `packages` member (when present) is an array of objects. -/
def goodShape : InspectResult → Prop
  | .payload (.jobj fs) =>
    (olookup fs "env_info" = none ∨ ∃ gs, olookup fs "env_info" = some (.jobj gs)) ∧
    (olookup fs "packages" = none ∨
      ∃ xs, olookup fs "packages" = some (.jarr xs) ∧ ∀ x ∈ xs, ∃ hs, x = .jobj hs)
  | .payload _ => False
  | _ => True

/-- C10 (amended): for every introspection payload that parses as a JSON
object of good shape, the aggregator never raises: the environment is fully
processed, an empty-object payload is treated like an inspection failure
(zero package rows), and a missing `env_info` object or missing individual
metadata keys yield empty-string metadata fields in every produced row. -/
theorem c10_aggregator_robust (o : EnvOracle) (ctime : ℚ → String) (E : EnvRef)
    (h : goodShape (o.inspect E.pythonExe)) :
    ∃ rs, processEnv o ctime E = .ok (rs, envRowFor o ctime E) ∧
      (o.inspect E.pythonExe = .payload (.jobj []) → rs = []) ∧
      (∀ fs gs, o.inspect E.pythonExe = .payload (.jobj fs) →
        (olookup fs "env_info").getD (.jobj []) = .jobj gs →
        ∀ r ∈ rs,
          (olookup gs "Python_Version" = none →
            rowField r "Python Version" = some (.jstr "")) ∧
          (olookup gs "Python_Installation_Location" = none →
            rowField r "Python Installation Location" = some (.jstr "")) ∧
          (olookup gs "Environment_Location" = none →
            rowField r "Environment Location" = some (.jstr ""))) := by
  cases hins : o.inspect E.pythonExe with
  | launchFailure =>
    refine ⟨[], processEnv_eq (envPkgRows_of_failure (by rw [hins]; rfl)),
      fun _ => rfl, ?_⟩
    intro fs gs hp
    cases hp
  | nonZeroExit =>
    refine ⟨[], processEnv_eq (envPkgRows_of_failure (by rw [hins]; rfl)),
      fun _ => rfl, ?_⟩
    intro fs gs hp
    cases hp
  | malformedPayload =>
    refine ⟨[], processEnv_eq (envPkgRows_of_failure (by rw [hins]; rfl)),
      fun _ => rfl, ?_⟩
    intro fs gs hp
    cases hp
  | payload v =>
    rw [hins] at h
    cases v with
    | jnull => cases h
    | jbool b => cases h
    | jnum q => cases h
    | jstr s => cases h
    | jarr elems => cases h
    | jobj fs =>
      cases fs with
      | nil =>
        refine ⟨[], ?_, fun _ => rfl, ?_⟩
        · apply processEnv_eq
          rw [envPkgRows, hins]
          rfl
        · intro fs2 gs hp hgs r hr
          simp at hr
      | cons f0 frest =>
        obtain ⟨rs, hbuild, hdef⟩ := buildPkgRows_shape h.1 h.2
        refine ⟨rs, ?_, ?_, ?_⟩
        · apply processEnv_eq
          rw [envPkgRows, hins]
          exact hbuild
        · intro hp
          cases hp
        · intro fs2 gs hp hgs r hr
          cases hp
          exact hdef gs hgs r hr

/-- An oracle whose introspection payload is valid JSON but not an object. -/
def badPayloadOracle : EnvOracle :=
  ⟨fun _ => .payload (.jarr [.jnum 1]), fun _ => .ok 0,
   fun _ => .completed 0 "No broken requirements found." ""⟩

/-- C10 counterexample: a payload that parses as the JSON array `[1]` is
truthy, so the aggregation loop calls `.get` on it and raises
`AttributeError`: the run crashes and nothing is written, refuting "for every
introspection payload that parses as JSON, the aggregator never throws". -/
theorem c10_counterexample :
    mainRun (some demoSoloTree) posixMarker badPayloadOracle ctimeDemo =
      .crashed "AttributeError" ∧
    csvFilesOf (mainRun (some demoSoloTree) posixMarker badPayloadOracle ctimeDemo) = [] :=
  ⟨rfl, rfl⟩

/-- An oracle whose introspection payload is the empty JSON object. -/
def emptyObjOracle : EnvOracle :=
  ⟨fun _ => .payload (.jobj []), fun _ => .ok 0,
   fun _ => .completed 0 "No broken requirements found." ""⟩

/-- Witness for the amended C10: the empty-object payload is processed
without an exception and contributes zero package rows. -/
theorem c10_witness :
    ∃ rs, processEnv emptyObjOracle ctimeDemo envA =
        .ok (rs, envRowFor emptyObjOracle ctimeDemo envA) ∧
      (emptyObjOracle.inspect envA.pythonExe = .payload (.jobj []) → rs = []) ∧
      (∀ fs gs, emptyObjOracle.inspect envA.pythonExe = .payload (.jobj fs) →
        (olookup fs "env_info").getD (.jobj []) = .jobj gs →
        ∀ r ∈ rs,
          (olookup gs "Python_Version" = none →
            rowField r "Python Version" = some (.jstr "")) ∧
          (olookup gs "Python_Installation_Location" = none →
            rowField r "Python Installation Location" = some (.jstr "")) ∧
          (olookup gs "Environment_Location" = none →
            rowField r "Environment Location" = some (.jstr ""))) :=
  c10_aggregator_robust emptyObjOracle ctimeDemo envA ⟨Or.inl rfl, Or.inl rfl⟩
